import Mathlib

/-! # Verification of the 2D histogram filter (src/helpers.cpp, src/localizer.cpp)

Grids are row-major lists of rows of rationals; the C++ `float` arithmetic is
modeled exactly by `ℚ`.  An out-of-bounds `std::vector` access — undefined
behaviour in the C++ source — is modeled by `Option.none`: every embedded
operation returns `none` exactly when the corresponding C++ code would index a
vector outside its bounds. -/

namespace HistogramFilter

/-- A belief grid: `vector<vector<float>>`. -/
abbrev Grid := List (List ℚ)

/-- A color map: `vector<vector<char>>`. -/
abbrev CGrid := List (List Char)

/-- `g[i][j]`.  The embedding only relies on the out-of-bounds default `0`
where the C++ code is free of undefined behaviour. -/
def getCell (g : Grid) (i j : ℕ) : ℚ := (g.getD i []).getD j 0

/-- `g[i][j] += q`. -/
def addCell (g : Grid) (i j : ℕ) (q : ℚ) : Grid :=
  g.modify (fun row => row.modify (fun x => x + q) j) i

/-- `g[i][j] = q`. -/
def setCell (g : Grid) (i j : ℕ) (q : ℚ) : Grid :=
  g.modify (fun row => row.set j q) i

/-- Width as the C++ code computes it: `grid[0].size()`. -/
def width (g : Grid) : ℕ := (g.headD []).length

/-- The grid is rectangular: every row has the length of the first row. -/
def Rect (g : Grid) : Prop := ∀ row ∈ g, row.length = width g

instance : DecidablePred Rect := fun g => List.decidableBAll _ g

/-- Every row of `g` has length at least `w`: reads `g[i][j]` with `j < w`
stay inside their row.  (A C++ loop bounded by `grid[0].size()` has undefined
behaviour on a grid with a shorter later row.) -/
def rowsAtLeast (g : Grid) (w : ℕ) : Prop := ∀ row ∈ g, w ≤ row.length

instance (g : Grid) (w : ℕ) : Decidable (rowsAtLeast g w) := List.decidableBAll _ g

/-- `zeros(height, width)` (helpers.cpp:262-275): a `height × width` grid of
`0.0`, also the result of the `vector(h, vector(w, 0.0))` constructor used by
`normalize`, `blur` and `move`. -/
def zeros (height w : ℕ) : Grid := List.replicate height (List.replicate w 0)

/-- The normalization factor of `normalize` (helpers.cpp:38-45): the sum of
`grid[row][cell]` over `row < grid.size()` and `cell < grid[0].size()`. -/
def grid_total (grid : Grid) : ℚ :=
  ((List.range grid.length).map fun row =>
    ((List.range (width grid)).map fun cell => getCell grid row cell).sum).sum

/-- `normalize` (helpers.cpp:32-57).  Out-of-bounds hazards modeled by `none`:
`grid[0]` on an empty grid; rows shorter than `grid[0].size()` read by the
summation loop; and the filling loop bounds its inner index by `grid.size()`
(the HEIGHT — helpers.cpp:50), so whenever `width < height` it reads
`grid[row][cell]` and writes `newGrid[row][cell]` at `cell ≥ width`.  When
`height ≤ width` the function is defined but fills only the first `height`
cells of each output row; the remaining cells keep their initial `0.0`. -/
def normalize (grid : Grid) : Option Grid :=
  if grid.length = 0 then none
  else if width grid < grid.length then none
  else if ¬ rowsAtLeast grid (width grid) then none
  else
    some ((List.range grid.length).map fun row =>
      (List.range (width grid)).map fun cell =>
        if cell < grid.length then getCell grid row cell / grid_total grid else 0)

/-- The 3×3 blurring window (helpers.cpp:103-111): center `1 - blurring`,
edge-adjacent `blurring / 6`, corner `blurring / 12`. -/
def window (blurring : ℚ) : List (List ℚ) :=
  [[blurring / 12, blurring / 6, blurring / 12],
   [blurring / 6, 1 - blurring, blurring / 6],
   [blurring / 12, blurring / 6, blurring / 12]]

/-- The loop offsets `dx, dy ∈ {-1, 0, 1}` (helpers.cpp:125-126). -/
def offsets : List ℤ := [-1, 0, 1]

/-- The wrap-around index `((x % m + m) % m)` of helpers.cpp:130-131, with `%`
the C++ (truncating) remainder; for `m > 0` the result is non-negative and
below `m`, so the cast to a natural index is exact. -/
def trueModNat (x : ℤ) (m : ℕ) : ℕ := ((x.tmod m + m).tmod m).toNat

/-- One entry per `+=` executed by the accumulation loop of `blur`
(helpers.cpp:120-138), in execution order (`i`, `j`, `dx` outer, `dy` inner):
destination row `((i + dy) % height + height) % height`, destination column
`((j + dx) % width + width) % width`, and the added value
`window[dx+1][dy+1] * grid[i][j]`. -/
def blurContribs (grid : Grid) (blurring : ℚ) : List (ℕ × ℕ × ℚ) :=
  (List.range grid.length).flatMap fun i =>
    (List.range (width grid)).flatMap fun j =>
      offsets.flatMap fun dx =>
        offsets.map fun dy =>
          (trueModNat ((i : ℤ) + dy) grid.length,
           trueModNat ((j : ℤ) + dx) (width grid),
           getCell (window blurring) (dx + 1).toNat (dy + 1).toNat * getCell grid i j)

/-- The accumulation loop of `blur`: each contribution added into a zero grid
of the input's shape. -/
def blurAccum (grid : Grid) (blurring : ℚ) : Grid :=
  (blurContribs grid blurring).foldl (fun acc t => addCell acc t.1 t.2.1 t.2.2)
    (zeros grid.length (width grid))

/-- `blur` (helpers.cpp:90-142): toroidal 3×3 convolution of the grid with
the window, followed by `normalize`.  `grid[0]` on an empty grid and reads
past the end of a short row are modeled by `none`. -/
def blur (grid : Grid) (blurring : ℚ) : Option Grid :=
  if grid.length = 0 then none
  else if ¬ rowsAtLeast grid (width grid) then none
  else normalize (blurAccum grid blurring)

/-- The translation loop of `move` (localizer.cpp:101-116): `beliefs[i][j]`
is assigned into a zero grid at row `(i + dy) % width` and column
`(j + dx) % height` — the source swaps the two moduli (localizer.cpp:111-112)
and uses the raw C++ remainder, which is negative for negative operands. -/
def moveTranslate (dy dx : ℤ) (beliefs : Grid) : Grid :=
  ((List.range beliefs.length).flatMap fun i =>
      (List.range (width beliefs)).map fun j => (i, j)).foldl
    (fun acc p =>
      setCell acc (((p.1 : ℤ) + dy).tmod (width beliefs)).toNat
        (((p.2 : ℤ) + dx).tmod beliefs.length).toNat (getCell beliefs p.1 p.2))
    (zeros beliefs.length (width beliefs))

/-- Every index written by the translation loop of `move` is inside
`newGrid`; when this fails the C++ code writes `newGrid[new_i][new_j]` out of
bounds (undefined behaviour). -/
def moveInBounds (dy dx : ℤ) (beliefs : Grid) : Prop :=
  ∀ i ∈ List.range beliefs.length, ∀ j ∈ List.range (width beliefs),
    (0 ≤ ((i : ℤ) + dy).tmod (width beliefs) ∧
      ((i : ℤ) + dy).tmod (width beliefs) < beliefs.length) ∧
    (0 ≤ ((j : ℤ) + dx).tmod beliefs.length ∧
      ((j : ℤ) + dx).tmod beliefs.length < width beliefs)

instance (dy dx : ℤ) (b : Grid) : Decidable (moveInBounds dy dx b) :=
  List.decidableBAll _ _

/-- `move` (localizer.cpp:91-120): translation of the beliefs by `(dy, dx)`
followed by `blur` with the given blurring. -/
def move (dy dx : ℤ) (beliefs : Grid) (blurring : ℚ) : Option Grid :=
  if beliefs.length = 0 then none
  else if ¬ rowsAtLeast beliefs (width beliefs) then none
  else if ¬ moveInBounds dy dx beliefs then none
  else blur (moveTranslate dy dx beliefs) blurring

/-- `initialize_beliefs` (localizer.cpp:40-54): a `height × width` grid whose
every cell is `1.0 / area` with `area = height * width`; `grid[0]` on an
empty map is out of bounds. -/
def initialize_beliefs (grid : CGrid) : Option Grid :=
  if grid.length = 0 then none
  else
    some (List.replicate grid.length
      (List.replicate (grid.headD []).length
        (1 / ((grid.length : ℚ) * ((grid.headD []).length : ℚ)))))

/-- `sense` (localizer.cpp:160-171).  The body is the instructor stub: the
accumulating grid `newGrid` is default-constructed empty and never filled
(the body is only "// your code here"), so the function returns
`normalize(newGrid)` on an empty grid, which indexes `grid[0]` out of
bounds. -/
def sense (color : Char) (grid : CGrid) (beliefs : Grid) (p_hit p_miss : ℚ) :
    Option Grid :=
  normalize []

/-- The scalar overload of `close_enough` (helpers.cpp:187-192). -/
def close_enough_scalar (v1 v2 : ℚ) : Bool :=
  if |v2 - v1| > 1 / 10000 then false else true

/-- `close_enough` on grids (helpers.cpp:165-185): `false` on a row-count or
first-row-width mismatch, otherwise a cell-by-cell comparison with absolute
tolerance `0.0001`.  `g1[0]` on two empty grids, and any row shorter than
`g1[0].size()`, are out of bounds. -/
def close_enough (g1 g2 : Grid) : Option Bool :=
  if g1.length ≠ g2.length then some false
  else if g1.length = 0 then none
  else if width g1 ≠ width g2 then some false
  else if ¬ (rowsAtLeast g1 (width g1) ∧ rowsAtLeast g2 (width g1)) then none
  else
    some ((List.range g1.length).all fun i =>
      (List.range (width g1)).all fun j =>
        if |getCell g2 i j - getCell g1 i j| > 1 / 10000 then false else true)


lemma length_addCell (g : Grid) (i j : ℕ) (q : ℚ) :
    (addCell g i j q).length = g.length := by
  simp [addCell]

lemma rowLen_addCell (g : Grid) (i j r : ℕ) (q : ℚ) :
    ((addCell g i j q).getD r []).length = (g.getD r []).length := by
  rw [addCell, List.getD_eq_getElem?_getD, List.getD_eq_getElem?_getD, List.getElem?_modify]
  cases hgr : g[r]? with
  | none => simp
  | some row =>
    by_cases hir : i = r <;> simp [hir]

lemma getCell_addCell (g : Grid) (i j r c : ℕ) (q : ℚ)
    (hr : r < g.length) (hc : c < (g.getD r []).length) :
    getCell (addCell g i j q) r c = getCell g r c + if i = r ∧ j = c then q else 0 := by
  have hgr : g[r]? = some (g[r]) := List.getElem?_eq_getElem hr
  have hc2 : c < (g[r]).length := by
    rwa [List.getD_eq_getElem?_getD, hgr, Option.getD_some] at hc
  rw [getCell, getCell, addCell, List.getD_eq_getElem?_getD, List.getD_eq_getElem?_getD,
    List.getElem?_modify, hgr]
  by_cases hir : i = r
  · subst hir
    simp only [eq_self_iff_true, if_true, true_and]
    show ((List.modify (fun x => x + q) j g[i])[c]?).getD 0 = _
    rw [List.getElem?_modify, List.getElem?_eq_getElem hc2]
    by_cases hjc : j = c
    · simp [hjc, hgr, List.getElem?_eq_getElem hc2]
    · simp [hjc, hgr, List.getElem?_eq_getElem hc2]
  · have hnand : ¬ (i = r ∧ j = c) := fun h => hir h.1
    simp [hir, hnand, hgr]


lemma getCell_foldl_addCell (L : List (ℕ × ℕ × ℚ)) (g : Grid) (r c : ℕ)
    (hr : r < g.length) (hc : c < (g.getD r []).length) :
    getCell (L.foldl (fun acc t => addCell acc t.1 t.2.1 t.2.2) g) r c =
      getCell g r c + ((L.map fun t => if t.1 = r ∧ t.2.1 = c then t.2.2 else 0)).sum := by
  induction L generalizing g with
  | nil => simp
  | cons t L ih =>
    rw [List.foldl_cons, ih (addCell g t.1 t.2.1 t.2.2)
        (by rw [length_addCell]; exact hr) (by rw [rowLen_addCell]; exact hc),
      getCell_addCell g t.1 t.2.1 r c t.2.2 hr hc]
    simp [add_assoc]

lemma length_zeros (h w : ℕ) : (zeros h w).length = h := by simp [zeros]

lemma rowLen_zeros (h w r : ℕ) (hr : r < h) : ((zeros h w).getD r []).length = w := by
  rw [zeros, List.getD_eq_getElem?_getD, List.getElem?_replicate, if_pos hr]
  simp

lemma getCell_zeros (h w r c : ℕ) : getCell (zeros h w) r c = 0 := by
  simp only [getCell, zeros, List.getD_eq_getElem?_getD, List.getElem?_replicate]
  by_cases hr : r < h <;> by_cases hc : c < w <;> simp [hr, hc]

lemma list_sum_range (n : ℕ) (f : ℕ → ℚ) :
    ((List.range n).map f).sum = ∑ i ∈ Finset.range n, f i := by
  induction n with
  | zero => simp
  | succ n ih =>
    rw [List.range_succ, List.map_append, List.sum_append, Finset.sum_range_succ, ih]
    simp

lemma sum_map_flatMap {α β : Type} (l : List α) (f : α → List β) (gf : β → ℚ) :
    ((l.flatMap f).map gf).sum = (l.map fun x => ((f x).map gf).sum).sum := by
  induction l with
  | nil => simp
  | cons a l ih => simp [List.flatMap_cons, ih]

lemma neg_lt_tmod (x : ℤ) (m : ℤ) (hm : 0 < m) : -m < x.tmod m := by
  obtain ⟨k, rfl⟩ := Int.eq_ofNat_of_zero_le hm.le
  have hk : 0 < k := by exact_mod_cast hm
  rcases x with n | n
  · exact lt_of_lt_of_le (by omega) (Int.tmod_nonneg _ (Int.ofNat_nonneg n))
  · have hdef : (Int.negSucc n).tmod ((k : ℕ) : ℤ) = -(((n + 1) % k : ℕ) : ℤ) := rfl
    rw [hdef]
    have hlt := Nat.mod_lt (n + 1) hk
    omega

lemma tmod_fix (x : ℤ) (m : ℕ) (hm : 0 < m) :
    (x.tmod m + m).tmod m = x % (m : ℤ) := by
  have hm' : (0 : ℤ) < m := by exact_mod_cast hm
  have h1 : 0 ≤ x.tmod m + m := by
    have := neg_lt_tmod x m hm'
    omega
  rw [Int.tmod_eq_emod h1 (by omega)]
  have h2 : x.tmod m = x - m * x.tdiv m := Int.tmod_def x m
  have h3 : x.tmod m + m = x + m * (1 - x.tdiv m) := by rw [h2]; ring
  rw [h3, Int.add_mul_emod_self_left]

lemma trueModNat_eq (x : ℤ) (m : ℕ) (hm : 0 < m) :
    (trueModNat x m : ℤ) = x % (m : ℤ) := by
  rw [trueModNat, tmod_fix x m hm]
  exact Int.toNat_of_nonneg (Int.emod_nonneg x (by exact_mod_cast hm.ne'))

lemma trueModNat_lt (x : ℤ) (m : ℕ) (hm : 0 < m) : trueModNat x m < m := by
  have h := trueModNat_eq x m hm
  have h2 := Int.emod_lt_of_pos x (b := (m : ℤ)) (by exact_mod_cast hm)
  omega

lemma trueModNat_of_lt (i m : ℕ) (hi : i < m) : trueModNat (i : ℤ) m = i := by
  have h := trueModNat_eq (i : ℤ) m (by omega)
  rw [Int.emod_eq_of_lt (by omega) (by exact_mod_cast hi)] at h
  omega

lemma sum_ite_mod (n : ℕ) (hn : 0 < n) (r : ℕ) (hr : r < n) (d : ℤ) (q : ℚ) :
    (∑ i ∈ Finset.range n, if trueModNat ((i : ℤ) + d) n = r then q else 0) = q := by
  have hn' : (0 : ℤ) < n := by exact_mod_cast hn
  set i0 : ℕ := (((r : ℤ) - d) % (n : ℤ)).toNat with hi0def
  have hi0nn : 0 ≤ ((r : ℤ) - d) % (n : ℤ) := Int.emod_nonneg _ (by omega)
  have hi0lt : i0 < n := by
    have := Int.emod_lt_of_pos ((r : ℤ) - d) hn'
    omega
  have hcond : ∀ i, i ∈ Finset.range n → (trueModNat ((i : ℤ) + d) n = r ↔ i = i0) := by
    intro i hi
    rw [Finset.mem_range] at hi
    have hkey := trueModNat_eq ((i : ℤ) + d) n hn
    constructor
    · intro h
      have h2 : ((i : ℤ) + d) % (n : ℤ) = (r : ℤ) := by omega
      have h3 : ((r : ℤ) - d) % (n : ℤ) = (i : ℤ) := by
        calc ((r : ℤ) - d) % (n : ℤ) = (((i : ℤ) + d) % (n : ℤ) - d) % (n : ℤ) := by rw [h2]
          _ = ((i : ℤ) + d - d) % (n : ℤ) := by
              rw [Int.sub_emod, Int.emod_emod_of_dvd _ dvd_rfl, ← Int.sub_emod]
          _ = (i : ℤ) % (n : ℤ) := by ring_nf
          _ = (i : ℤ) := Int.emod_eq_of_lt (by omega) (by exact_mod_cast hi)
      omega
    · intro h
      subst h
      have h5 : ((i0 : ℤ) + d) % (n : ℤ) = (r : ℤ) := by
        have h6 : (i0 : ℤ) = ((r : ℤ) - d) % (n : ℤ) := by omega
        calc ((i0 : ℤ) + d) % (n : ℤ) = (((r : ℤ) - d) % (n : ℤ) + d) % (n : ℤ) := by rw [h6]
          _ = ((r : ℤ) - d + d) % (n : ℤ) := by
              rw [Int.add_emod, Int.emod_emod_of_dvd _ dvd_rfl, ← Int.add_emod]
          _ = (r : ℤ) % (n : ℤ) := by ring_nf
          _ = (r : ℤ) := Int.emod_eq_of_lt (by omega) (by exact_mod_cast hr)
      omega
  calc (∑ i ∈ Finset.range n, if trueModNat ((i : ℤ) + d) n = r then q else 0)
      = ∑ i ∈ Finset.range n, if i = i0 then q else 0 := by
        refine Finset.sum_congr rfl fun i hi => ?_
        by_cases h : i = i0
        · rw [if_pos h, if_pos ((hcond i hi).mpr h)]
        · rw [if_neg h, if_neg (fun hh => h ((hcond i hi).mp hh))]
    _ = q := by
        rw [Finset.sum_ite_eq' (Finset.range n) i0 (fun _ => q)]
        exact if_pos (Finset.mem_range.mpr hi0lt)


lemma length_foldl_addCell (L : List (ℕ × ℕ × ℚ)) (g : Grid) :
    (L.foldl (fun acc t => addCell acc t.1 t.2.1 t.2.2) g).length = g.length := by
  induction L generalizing g with
  | nil => rfl
  | cons t L ih => rw [List.foldl_cons, ih, length_addCell]

lemma rowLen_foldl_addCell (L : List (ℕ × ℕ × ℚ)) (g : Grid) (r : ℕ) :
    ((L.foldl (fun acc t => addCell acc t.1 t.2.1 t.2.2) g).getD r []).length =
      (g.getD r []).length := by
  induction L generalizing g with
  | nil => rfl
  | cons t L ih => rw [List.foldl_cons, ih, rowLen_addCell]

lemma length_blurAccum (g : Grid) (b : ℚ) : (blurAccum g b).length = g.length := by
  rw [blurAccum, length_foldl_addCell, length_zeros]

lemma rowLen_blurAccum (g : Grid) (b : ℚ) (r : ℕ) (hr : r < g.length) :
    ((blurAccum g b).getD r []).length = width g := by
  rw [blurAccum, rowLen_foldl_addCell, rowLen_zeros _ _ _ hr]

lemma getCell_blurAccum (g : Grid) (b : ℚ) (r c : ℕ)
    (hr : r < g.length) (hc : c < width g) :
    getCell (blurAccum g b) r c =
      ∑ i ∈ Finset.range g.length, ∑ j ∈ Finset.range (width g),
        ((offsets.map fun dx => ((offsets.map fun dy =>
            if trueModNat ((i : ℤ) + dy) g.length = r ∧
                trueModNat ((j : ℤ) + dx) (width g) = c
            then getCell (window b) (dx + 1).toNat (dy + 1).toNat * getCell g i j
            else 0).sum)).sum) := by
  rw [blurAccum, getCell_foldl_addCell _ _ r c
      (by rw [length_zeros]; exact hr) (by rw [rowLen_zeros _ _ _ hr]; exact hc),
    getCell_zeros, zero_add, blurContribs]
  rw [sum_map_flatMap]
  simp only [sum_map_flatMap, List.map_map]
  rw [list_sum_range]
  refine Finset.sum_congr rfl fun i hi => ?_
  rw [list_sum_range]
  refine Finset.sum_congr rfl fun j hj => ?_
  rfl


lemma getCell_blurAccum_zero (g : Grid) (r c : ℕ) (hr : r < g.length) (hc : c < width g) :
    getCell (blurAccum g 0) r c = getCell g r c := by
  rw [getCell_blurAccum g 0 r c hr hc]
  have step : ∀ i ∈ Finset.range g.length, ∀ j ∈ Finset.range (width g),
      ((offsets.map fun dx => ((offsets.map fun dy =>
          if trueModNat ((i : ℤ) + dy) g.length = r ∧
              trueModNat ((j : ℤ) + dx) (width g) = c
          then getCell (window 0) (dx + 1).toNat (dy + 1).toNat * getCell g i j
          else 0).sum)).sum)
        = if i = r ∧ j = c then getCell g i j else 0 := by
    intro i hi j hj
    rw [Finset.mem_range] at hi hj
    simp only [offsets, List.map_cons, List.map_nil, List.sum_cons, List.sum_nil]
    have h2 : (2 : ℤ).toNat = 2 := rfl
    norm_num [window, getCell, h2]
    rw [trueModNat_of_lt i _ hi, trueModNat_of_lt j _ hj]
  rw [Finset.sum_congr rfl fun i hi => Finset.sum_congr rfl fun j hj => step i hi j hj]
  have key : ∀ i j : ℕ, (if i = r ∧ j = c then getCell g i j else 0)
      = (if i = r then (1 : ℚ) else 0) * (if j = c then getCell g r c else 0) := by
    intro i j
    by_cases h1 : i = r <;> by_cases h2 : j = c <;> simp [h1, h2]
  rw [Finset.sum_congr rfl fun i _ => Finset.sum_congr rfl fun j _ => key i j]
  have inner : ∀ i : ℕ, (∑ j ∈ Finset.range (width g),
      (if i = r then (1 : ℚ) else 0) * (if j = c then getCell g r c else 0))
      = (if i = r then (1 : ℚ) else 0) * getCell g r c := by
    intro i
    rw [← Finset.mul_sum, Finset.sum_ite_eq' (Finset.range (width g)) c
      (fun _ => getCell g r c), if_pos (Finset.mem_range.mpr hc)]
  rw [Finset.sum_congr rfl fun i _ => inner i, ← Finset.sum_mul,
    Finset.sum_ite_eq' (Finset.range g.length) r (fun _ => (1 : ℚ)),
    if_pos (Finset.mem_range.mpr hr), one_mul]


lemma width_eq_rowLen0 (g : Grid) : width g = (g.getD 0 []).length := by
  cases g <;> rfl

lemma rowsAtLeast_of_rowLen (g : Grid) (w : ℕ)
    (h : ∀ r, r < g.length → w ≤ (g.getD r []).length) : rowsAtLeast g w := by
  intro row hrow
  obtain ⟨idx, hidx, rfl⟩ := List.mem_iff_getElem.mp hrow
  have h2 := h idx hidx
  rwa [List.getD_eq_getElem?_getD, List.getElem?_eq_getElem hidx, Option.getD_some] at h2

lemma rowsAtLeast_of_rect (g : Grid) (hrect : Rect g) : rowsAtLeast g (width g) :=
  fun row hrow => le_of_eq (hrect row hrow).symm

lemma rect_rowLen (g : Grid) (hrect : Rect g) (r : ℕ) (hr : r < g.length) :
    (g.getD r []).length = width g := by
  rw [List.getD_eq_getElem?_getD, List.getElem?_eq_getElem hr, Option.getD_some]
  exact hrect _ (List.getElem_mem hr)

lemma grid_total_congr (g1 g2 : Grid) (hlen : g1.length = g2.length)
    (hw : width g1 = width g2)
    (hcell : ∀ r, r < g1.length → ∀ c, c < width g1 → getCell g1 r c = getCell g2 r c) :
    grid_total g1 = grid_total g2 := by
  rw [grid_total, grid_total, ← hlen, ← hw, list_sum_range, list_sum_range]
  refine Finset.sum_congr rfl fun r hrm => ?_
  rw [list_sum_range, list_sum_range]
  refine Finset.sum_congr rfl fun c hcm => ?_
  exact hcell r (Finset.mem_range.mp hrm) c (Finset.mem_range.mp hcm)

lemma normalize_congr (g1 g2 : Grid) (hlen : g1.length = g2.length)
    (hw : width g1 = width g2)
    (hcell : ∀ r, r < g1.length → ∀ c, c < width g1 → getCell g1 r c = getCell g2 r c)
    (h1 : rowsAtLeast g1 (width g1)) (h2 : rowsAtLeast g2 (width g2)) :
    normalize g1 = normalize g2 := by
  by_cases hz : g1.length = 0
  · rw [normalize, normalize, if_pos hz, if_pos (by omega)]
  · by_cases hwl : width g1 < g1.length
    · rw [normalize, normalize, if_neg hz, if_pos hwl, if_neg (by omega : ¬ (g2.length = 0)),
        if_pos (by rw [← hlen, ← hw]; exact hwl)]
    · have htot := grid_total_congr g1 g2 hlen hw hcell
      rw [normalize, normalize, if_neg hz, if_neg hwl, if_neg (not_not_intro h1),
        if_neg (by omega : ¬ (g2.length = 0)),
        if_neg (by rw [← hlen, ← hw]; exact hwl), if_neg (not_not_intro h2), ← hlen, ← hw]
      congr 1
      refine List.map_congr_left fun r hrm => ?_
      refine List.map_congr_left fun c hcm => ?_
      rw [List.mem_range] at hrm hcm
      by_cases hcl : c < g1.length
      · rw [if_pos hcl, if_pos hcl, hcell r hrm c hcm, htot]
      · rw [if_neg hcl, if_neg hcl]

lemma blur_zero_eq_normalize_aux (g : Grid) (hrect : Rect g) (hne : g ≠ []) :
    blur g 0 = normalize g := by
  have hz : ¬ (g.length = 0) := by simpa [List.length_eq_zero] using hne
  have hrows : rowsAtLeast g (width g) := rowsAtLeast_of_rect g hrect
  rw [blur, if_neg hz, if_neg (not_not_intro hrows)]
  have hpos : 0 < g.length := by omega
  refine normalize_congr _ _ (length_blurAccum g 0) ?_ ?_ ?_ hrows
  · rw [width_eq_rowLen0, rowLen_blurAccum g 0 0 hpos]
  · intro r hr c hc
    rw [length_blurAccum] at hr
    have hwc : c < width g := by
      rwa [width_eq_rowLen0 (blurAccum g 0), rowLen_blurAccum g 0 0 hpos] at hc
    exact getCell_blurAccum_zero g r c hr hwc
  · refine rowsAtLeast_of_rowLen _ _ fun r hr => ?_
    rw [length_blurAccum] at hr
    rw [rowLen_blurAccum g 0 r hr, width_eq_rowLen0 (blurAccum g 0),
      rowLen_blurAccum g 0 0 hpos]


lemma sum_sum_ite_and (n : ℕ) (hn : 0 < n) (r c : ℕ) (hr : r < n) (hc : c < n)
    (dy dx : ℤ) (v : ℚ) :
    (∑ i ∈ Finset.range n, ∑ j ∈ Finset.range n,
      if trueModNat ((i : ℤ) + dy) n = r ∧ trueModNat ((j : ℤ) + dx) n = c
      then v else 0) = v := by
  have key : ∀ i j : ℕ,
      (if trueModNat ((i : ℤ) + dy) n = r ∧ trueModNat ((j : ℤ) + dx) n = c then v else 0)
      = (if trueModNat ((i : ℤ) + dy) n = r then (1 : ℚ) else 0) *
        (if trueModNat ((j : ℤ) + dx) n = c then v else 0) := by
    intro i j
    by_cases h1 : trueModNat ((i : ℤ) + dy) n = r <;>
      by_cases h2 : trueModNat ((j : ℤ) + dx) n = c <;> simp [h1, h2]
  rw [Finset.sum_congr rfl fun i _ => Finset.sum_congr rfl fun j _ => key i j]
  have inner : ∀ i : ℕ, (∑ j ∈ Finset.range n,
      (if trueModNat ((i : ℤ) + dy) n = r then (1 : ℚ) else 0) *
        (if trueModNat ((j : ℤ) + dx) n = c then v else 0))
      = (if trueModNat ((i : ℤ) + dy) n = r then (1 : ℚ) else 0) * v := by
    intro i
    rw [← Finset.mul_sum, sum_ite_mod n hn c hc dx v]
  rw [Finset.sum_congr rfl fun i _ => inner i, ← Finset.sum_mul,
    sum_ite_mod n hn r hr dy 1, one_mul]

lemma getCell_blurAccum_const (g : Grid) (b q : ℚ) (n : ℕ) (hn : 0 < n)
    (hlen : g.length = n) (hw : width g = n)
    (hcell : ∀ i, i < n → ∀ j, j < n → getCell g i j = q)
    (r c : ℕ) (hr : r < n) (hc : c < n) :
    getCell (blurAccum g b) r c = q := by
  rw [getCell_blurAccum g b r c (by omega) (by omega), hlen, hw]
  have step : ∀ i ∈ Finset.range n, ∀ j ∈ Finset.range n,
      ((offsets.map fun dx => ((offsets.map fun dy =>
          if trueModNat ((i : ℤ) + dy) n = r ∧ trueModNat ((j : ℤ) + dx) n = c
          then getCell (window b) (dx + 1).toNat (dy + 1).toNat * getCell g i j
          else 0).sum)).sum)
      = ((offsets.map fun dx => ((offsets.map fun dy =>
          if trueModNat ((i : ℤ) + dy) n = r ∧ trueModNat ((j : ℤ) + dx) n = c
          then getCell (window b) (dx + 1).toNat (dy + 1).toNat * q
          else 0).sum)).sum) := by
    intro i hi j hj
    rw [Finset.mem_range] at hi hj
    simp only [hcell i hi j hj]
  refine (Finset.sum_congr rfl fun i hi =>
    Finset.sum_congr rfl fun j hj => step i hi j hj).trans ?_
  simp only [offsets, List.map_cons, List.map_nil, List.sum_cons, List.sum_nil]
  have h2 : (2 : ℤ).toNat = 2 := rfl
  norm_num [window, getCell, h2]
  simp only [Finset.sum_add_distrib]
  have base := sum_sum_ite_and n hn r c hr hc
  have hdy0 : ∀ (dx : ℤ) (v : ℚ), (∑ i ∈ Finset.range n, ∑ j ∈ Finset.range n,
      if trueModNat (i : ℤ) n = r ∧ trueModNat ((j : ℤ) + dx) n = c then v else 0) = v := by
    intro dx v
    have hb := base 0 dx v
    simpa using hb
  have hdx0 : ∀ (dy : ℤ) (v : ℚ), (∑ i ∈ Finset.range n, ∑ j ∈ Finset.range n,
      if trueModNat ((i : ℤ) + dy) n = r ∧ trueModNat (j : ℤ) n = c then v else 0) = v := by
    intro dy v
    have hb := base dy 0 v
    simpa using hb
  have h00 : ∀ (v : ℚ), (∑ i ∈ Finset.range n, ∑ j ∈ Finset.range n,
      if trueModNat (i : ℤ) n = r ∧ trueModNat (j : ℤ) n = c then v else 0) = v := by
    intro v
    have hb := base 0 0 v
    simpa using hb
  simp only [base, hdy0, hdx0, h00]
  ring


lemma getCell_replicate (h w : ℕ) (q : ℚ) (r c : ℕ) (hr : r < h) (hc : c < w) :
    getCell (List.replicate h (List.replicate w q)) r c = q := by
  simp only [getCell, List.getD_eq_getElem?_getD, List.getElem?_replicate, if_pos hr]
  simp [hc]

lemma width_replicate (h w : ℕ) (q : ℚ) (hh : 0 < h) :
    width (List.replicate h (List.replicate w q)) = w := by
  cases h with
  | zero => omega
  | succ n =>
    rw [List.replicate_succ]
    simp [width]

lemma rect_replicate (h w : ℕ) (q : ℚ) : Rect (List.replicate h (List.replicate w q)) := by
  intro row hrow
  rw [List.eq_of_mem_replicate hrow]
  cases h with
  | zero => simp at hrow
  | succ n => rfl

lemma grid_total_const2 (g : Grid) (h w : ℕ) (q : ℚ) (hlen : g.length = h)
    (hw : width g = w) (hcell : ∀ i, i < h → ∀ j, j < w → getCell g i j = q) :
    grid_total g = (h : ℚ) * ((w : ℚ) * q) := by
  rw [grid_total, hlen, hw, list_sum_range]
  have inner : ∀ i ∈ Finset.range h,
      ((List.range w).map fun cell => getCell g i cell).sum = (w : ℚ) * q := by
    intro i hi
    rw [list_sum_range,
      Finset.sum_congr rfl fun j hj =>
        hcell i (Finset.mem_range.mp hi) j (Finset.mem_range.mp hj),
      Finset.sum_const, Finset.card_range, nsmul_eq_mul]
  rw [Finset.sum_congr rfl inner, Finset.sum_const, Finset.card_range, nsmul_eq_mul]

lemma window_sum (b : ℚ) : ((window b).map List.sum).sum = 1 := by
  simp [window]
  ring

lemma blur_uniform_aux (n : ℕ) (hn : 0 < n) (b : ℚ) :
    blur (List.replicate n (List.replicate n (1 / ((n : ℚ) * (n : ℚ))))) b
      = some (List.replicate n (List.replicate n (1 / ((n : ℚ) * (n : ℚ))))) := by
  set q : ℚ := 1 / ((n : ℚ) * (n : ℚ)) with hq
  have hnQ : ((n : ℚ) * (n : ℚ)) ≠ 0 := by
    have hne : (n : ℚ) ≠ 0 := Nat.cast_ne_zero.mpr hn.ne'
    exact mul_ne_zero hne hne
  have hulen : (List.replicate n (List.replicate n q)).length = n := by simp
  have huw : width (List.replicate n (List.replicate n q)) = n := by
    rw [width_replicate n n q hn]
  have hcell : ∀ i, i < n → ∀ j, j < n →
      getCell (List.replicate n (List.replicate n q)) i j = q :=
    fun i hi j hj => getCell_replicate n n q i j hi hj
  have hrect : Rect (List.replicate n (List.replicate n q)) := rect_replicate n n q
  have hurows : rowsAtLeast (List.replicate n (List.replicate n q))
      (width (List.replicate n (List.replicate n q))) :=
    rowsAtLeast_of_rect _ hrect
  have hBAlen : (blurAccum (List.replicate n (List.replicate n q)) b).length = n := by
    rw [length_blurAccum, hulen]
  have hBAcell : ∀ r, r < n → ∀ c, c < n →
      getCell (blurAccum (List.replicate n (List.replicate n q)) b) r c = q :=
    fun r hr c hc => getCell_blurAccum_const _ b q n hn hulen huw hcell r c hr hc
  have hBAw : width (blurAccum (List.replicate n (List.replicate n q)) b) = n := by
    rw [width_eq_rowLen0, rowLen_blurAccum _ b 0 (by omega), huw]
  have htot : grid_total (blurAccum (List.replicate n (List.replicate n q)) b) = 1 := by
    rw [grid_total_const2 _ n n q hBAlen hBAw hBAcell, hq]
    field_simp
  have hBArows : rowsAtLeast (blurAccum (List.replicate n (List.replicate n q)) b)
      (width (blurAccum (List.replicate n (List.replicate n q)) b)) := by
    refine rowsAtLeast_of_rowLen _ _ fun r hr => ?_
    rw [rowLen_blurAccum _ b r (by omega : r < (List.replicate n (List.replicate n q)).length),
      huw, hBAw]
  rw [blur, if_neg (by omega : ¬ (List.replicate n (List.replicate n q)).length = 0),
    if_neg (not_not_intro hurows), normalize,
    if_neg (by omega : ¬ ((blurAccum (List.replicate n (List.replicate n q)) b).length = 0)),
    if_neg (by rw [hBAw, hBAlen]; omega), if_neg (not_not_intro hBArows), hBAlen, hBAw, htot]
  congr 1
  refine List.ext_getElem (by simp) fun idx h1 h2 => ?_
  have hidx : idx < n := by simpa using h1
  rw [List.getElem_map, List.getElem_range, List.getElem_replicate]
  refine List.ext_getElem (by simp) fun c hc1 hc2 => ?_
  have hcn : c < n := by simpa using hc1
  rw [List.getElem_map, List.getElem_range, List.getElem_replicate,
    if_pos hcn, hBAcell idx hidx c hcn, div_one]


lemma normalize_defined (g : Grid) (hne : g ≠ []) (hhw : g.length ≤ width g)
    (hrows : rowsAtLeast g (width g)) : ∃ gr, normalize g = some gr := by
  rw [normalize, if_neg (by simpa [List.length_eq_zero] using hne), if_neg (by omega),
    if_neg (not_not_intro hrows)]
  exact ⟨_, rfl⟩

lemma ite_false_true (p : Prop) [Decidable p] :
    ((if p then false else true) = true) ↔ ¬ p := by
  by_cases h : p <;> simp [h]

/-- C1: the claim reads `normalize` as filling every cell of a rectangular
grid with `grid[i][j] / S` and the result summing to one; but the filling
loop of helpers.cpp:49-53 bounds its inner index by `grid.size()` (the
height) instead of `grid[0].size()`, so on the 1×2 grid `[[1,2]]` (total
`S = 3`) only the first column is filled and the output is `[[1/3, 0]]`,
which sums to `1/3`, not `1`. -/
theorem normalize_truncates_nonsquare :
    grid_total [[(1 : ℚ), 2]] = 3 ∧
    normalize [[(1 : ℚ), 2]] = some [[1/3, 0]] ∧
    normalize [[(1 : ℚ), 2]] ≠ some [[1/3, 2/3]] := by
  refine ⟨?_, ?_, ?_⟩ <;> with_unfolding_all decide

/-- C2: the claim says the translation step of `move` sends cell `(i,j)` to
`((i+dy) mod height, (j+dx) mod width)` with the always-non-negative true
modulus, for arbitrary integer offsets.  The code (localizer.cpp:111-112)
instead computes `(i+dy) % width` and `(j+dx) % height` with the raw C++
remainder: for `dy = -1` on a 3×3 grid the row index is `-1` (out of
bounds, modeled `none`), and on a non-square 2×3 grid even `dy = 1, dx = 0`
writes to row `2 % 3 = 2 ≥ height` (out of bounds). -/
theorem move_raw_remainder_oob :
    move (-1) 0 [[0, 0, 0], [0, 1, 0], [0, 0, 0]] 0 = none ∧
    move 1 0 [[1, 2, 3], [4, 5, 6]] 0 = none := by
  refine ⟨?_, ?_⟩ <;> with_unfolding_all decide

/-- C3: the claim describes a Bayesian reweighting, but `sense`
(localizer.cpp:160-171) is an unimplemented stub: `newGrid` stays empty and
`normalize(newGrid)` indexes `grid[0]` on an empty vector, so on the spec's
own example the function does not return `[[0.75, 0.25]]`. -/
theorem sense_stub_returns_none :
    sense 'r' [['r', 'g']] [[1/2, 1/2]] 3 1 = none := by
  with_unfolding_all decide

/-- C4: the claim says `move (dy,dx)` with zero blur followed by
`move (-dy,-dx)` returns the original normalized grid.  The forward move
succeeds, but the inverse move evaluates `(0 + (-1)) % 3 = -1` with the raw
C++ remainder and indexes the grid out of bounds (modeled `none`), so the
round trip fails for every nonzero offset. -/
theorem move_inverse_round_trip_oob :
    move 1 1 [[0, 0, 0], [0, 1, 0], [0, 0, 0]] 0 = some [[0, 0, 0], [0, 0, 0], [0, 0, 1]] ∧
    move (-1) (-1) [[0, 0, 0], [0, 0, 0], [0, 0, 1]] 0 = none := by
  refine ⟨?_, ?_⟩ <;> with_unfolding_all decide

/-- C5 counterexample: the claim says a zero total mass makes `normalize`
fail with a caller-visible error; but on `[[0]]` (total mass `0`) the code
performs no check and still returns a grid (`float` division by zero in the
source; the exact embedding renders `x / 0` as `0`). -/
theorem normalize_zero_mass_returns_some :
    grid_total [[(0 : ℚ)]] = 0 ∧
    normalize [[(0 : ℚ)]] = some [[0]] ∧
    normalize [[(0 : ℚ)]] ≠ none := by
  refine ⟨?_, ?_, ?_⟩ <;> with_unfolding_all decide

/-- C5 amended: `normalize` contains no check of the total mass at all: on
every non-empty grid with `height ≤ width` (the shapes on which the code is
free of undefined behaviour) it returns a result grid, even when the total
is zero — dividing by the zero total instead of raising an error. -/
theorem normalize_no_mass_check (g : Grid) (hne : g ≠ []) (hhw : g.length ≤ width g)
    (hrows : rowsAtLeast g (width g)) : ∃ gr, normalize g = some gr :=
  normalize_defined g hne hhw hrows

/-- Witness for C5: the amended statement at the concrete zero-mass grid `[[0]]`. -/
theorem normalize_no_mass_check_witness : ∃ gr, normalize [[(0 : ℚ)]] = some gr :=
  normalize_no_mass_check [[(0 : ℚ)]] (by decide) (by decide) (by decide)

/-- C6: with `blurring = 0` the window degenerates to the identity kernel
(center `1`, all spill weights `0`), and `blur g 0` is exactly the same
Option-result as `normalize g` for every rectangular non-empty grid with
positive total mass (exact equality, hence equality within any tolerance). -/
theorem blur_zero_is_normalize (g : Grid) (hrect : Rect g) (hne : g ≠ [])
    (hmass : 0 < grid_total g) :
    window 0 = [[0, 0, 0], [0, 1, 0], [0, 0, 0]] ∧ blur g 0 = normalize g :=
  ⟨by norm_num [window], blur_zero_eq_normalize_aux g hrect hne⟩

/-- Witness for C6: the statement at the concrete grid `[[1,2],[3,4]]`. -/
theorem blur_zero_is_normalize_witness :
    window 0 = [[0, 0, 0], [0, 1, 0], [0, 0, 0]] ∧
    blur [[(1 : ℚ), 2], [3, 4]] 0 = normalize [[(1 : ℚ), 2], [3, 4]] :=
  blur_zero_is_normalize [[(1 : ℚ), 2], [3, 4]] (by decide) (by decide)
    (by with_unfolding_all decide)

/-- C7 counterexample: the kernel does sum to one, but a uniform belief grid
is NOT in general a fixed point of `blur`: on the non-square 1×2 uniform
grid `[[1/2, 1/2]]` with `blurring = 1/2 ∈ [0,1]`, the `normalize` called by
`blur` truncates (helpers.cpp:50) and returns `[[1/2, 0]]`. -/
theorem blur_uniform_nonsquare_not_fixed :
    (0 : ℚ) ≤ 1/2 ∧ (1/2 : ℚ) ≤ 1 ∧
    blur [[(1 : ℚ)/2, 1/2]] (1/2) = some [[1/2, 0]] ∧
    blur [[(1 : ℚ)/2, 1/2]] (1/2) ≠ some [[(1 : ℚ)/2, 1/2]] := by
  refine ⟨?_, ?_, ?_, ?_⟩ <;> with_unfolding_all decide

/-- C7 amended: for every `blurring b ∈ [0,1]` the 3×3 window entries sum
exactly to one, and every SQUARE uniform belief grid (all cells
`1/(n·n)`) is a fixed point of `blur`. -/
theorem window_sum_one_uniform_fixed (b : ℚ) (hb0 : 0 ≤ b) (hb1 : b ≤ 1)
    (n : ℕ) (hn : 0 < n) :
    ((window b).map List.sum).sum = 1 ∧
    blur (List.replicate n (List.replicate n (1 / ((n : ℚ) * (n : ℚ))))) b
      = some (List.replicate n (List.replicate n (1 / ((n : ℚ) * (n : ℚ))))) :=
  ⟨window_sum b, blur_uniform_aux n hn b⟩

/-- Witness for C7: the amended statement at `b = 1/2` on the 2×2 uniform grid. -/
theorem window_sum_one_uniform_fixed_witness :
    ((window (1/2)).map List.sum).sum = 1 ∧
    blur (List.replicate 2 (List.replicate 2 (1 / ((2 : ℚ) * (2 : ℚ))))) (1/2)
      = some (List.replicate 2 (List.replicate 2 (1 / ((2 : ℚ) * (2 : ℚ))))) :=
  window_sum_one_uniform_fixed (1/2) (by norm_num) (by norm_num) 2 (by norm_num)


/-- Every row of a color map has the length of its first row (rectangular). -/
def RectC (g : CGrid) : Prop := ∀ row ∈ g, row.length = (g.headD []).length

instance : DecidablePred RectC := fun g => List.decidableBAll _ g

/-- C8: `initialize_beliefs` on a rectangular non-empty `height × width`
map returns the `height × width` grid whose every cell is
`1 / (height*width)`, a uniform distribution of total mass one; on a 2×2
map it returns `[[0.25, 0.25], [0.25, 0.25]]`. -/
theorem initialize_beliefs_uniform (grid : CGrid) (hrect : RectC grid)
    (hne : grid ≠ []) (hw : 0 < (grid.headD []).length) :
    initialize_beliefs grid = some (List.replicate grid.length
      (List.replicate (grid.headD []).length
        (1 / ((grid.length : ℚ) * ((grid.headD []).length : ℚ))))) ∧
    (∀ gb, initialize_beliefs grid = some gb →
      gb.length = grid.length ∧ width gb = (grid.headD []).length ∧
      (∀ i, i < grid.length → ∀ j, j < (grid.headD []).length →
        getCell gb i j = 1 / ((grid.length : ℚ) * ((grid.headD []).length : ℚ))) ∧
      grid_total gb = 1) ∧
    initialize_beliefs [['g', 'g'], ['g', 'g']] = some [[1/4, 1/4], [1/4, 1/4]] := by
  have hlen0 : ¬ (grid.length = 0) := by simpa [List.length_eq_zero] using hne
  have hfirst : initialize_beliefs grid = some (List.replicate grid.length
      (List.replicate (grid.headD []).length
        (1 / ((grid.length : ℚ) * ((grid.headD []).length : ℚ))))) := by
    rw [initialize_beliefs, if_neg hlen0]
  refine ⟨hfirst, ?_, by with_unfolding_all decide⟩
  intro gb hgb
  rw [hfirst, Option.some_inj] at hgb
  subst hgb
  have hh : 0 < grid.length := by omega
  refine ⟨by simp, width_replicate _ _ _ hh, ?_, ?_⟩
  · intro i hi j hj
    exact getCell_replicate _ _ _ i j hi hj
  · rw [grid_total_const2 _ grid.length (grid.headD []).length
      (1 / ((grid.length : ℚ) * ((grid.headD []).length : ℚ)))
      (by simp) (width_replicate _ _ _ hh)
      (fun i hi j hj => getCell_replicate _ _ _ i j hi hj)]
    have hq1 : ((grid.length : ℚ)) ≠ 0 := Nat.cast_ne_zero.mpr (by omega)
    have hq2 : (((grid.headD []).length : ℚ)) ≠ 0 := Nat.cast_ne_zero.mpr (by omega)
    have hx : ((grid.length : ℚ) * (((grid.headD []).length : ℚ))) ≠ 0 :=
      mul_ne_zero hq1 hq2
    have hgoal : (grid.length : ℚ) * (((grid.headD []).length : ℚ) *
        (1 / ((grid.length : ℚ) * ((grid.headD []).length : ℚ))))
        = ((grid.length : ℚ) * ((grid.headD []).length : ℚ)) /
          ((grid.length : ℚ) * ((grid.headD []).length : ℚ)) := by
      ring
    rw [hgoal, div_self hx]

/-- Witness for C8: the statement at the concrete 2×2 all-green map. -/
theorem initialize_beliefs_uniform_witness :
    initialize_beliefs [['g', 'g'], ['g', 'g']] = some [[1/4, 1/4], [1/4, 1/4]] := by
  have h := initialize_beliefs_uniform [['g', 'g'], ['g', 'g']]
    (by decide) (by decide) (by decide)
  exact h.2.2

/-- C9: on the 3×3 beliefs grid with all mass at the center, `move` with
`dy = 1, dx = 1, blurring = 0` returns the grid with all mass at the
bottom-right cell, exactly as the claim states. -/
theorem move_example_center :
    move 1 1 [[0, 0, 0], [0, 1, 0], [0, 0, 0]] 0
      = some [[0, 0, 0], [0, 0, 0], [0, 0, 1]] := by
  with_unfolding_all decide

/-- C10: `close_enough` on grids returns `false` on a row-count mismatch or
a first-row-width mismatch; on rectangular grids of equal dimensions it
returns `true` iff every per-cell difference is at most `0.0001`
(inclusive bound), and the scalar overload is the same inclusive
comparison. -/
theorem close_enough_tolerance (g1 g2 : Grid) (h1 : Rect g1) (h2 : Rect g2) :
    (g1.length ≠ g2.length → close_enough g1 g2 = some false) ∧
    (g1 ≠ [] → g1.length = g2.length → width g1 ≠ width g2 →
      close_enough g1 g2 = some false) ∧
    (g1 ≠ [] → g1.length = g2.length → width g1 = width g2 →
      (close_enough g1 g2 = some true ↔
        ∀ i, i < g1.length → ∀ j, j < width g1 →
          |getCell g2 i j - getCell g1 i j| ≤ 1 / 10000)) ∧
    (∀ v1 v2 : ℚ, close_enough_scalar v1 v2 = true ↔ |v2 - v1| ≤ 1 / 10000) := by
  refine ⟨?_, ?_, ?_, ?_⟩
  · intro hne
    rw [close_enough, if_pos hne]
  · intro hg1 hlen hwne
    rw [close_enough, if_neg (not_not_intro hlen),
      if_neg (by simpa [List.length_eq_zero] using hg1), if_pos hwne]
  · intro hg1 hlen hweq
    have hz : ¬ (g1.length = 0) := by simpa [List.length_eq_zero] using hg1
    have hr1 : rowsAtLeast g1 (width g1) := rowsAtLeast_of_rect g1 h1
    have hr2 : rowsAtLeast g2 (width g1) := hweq ▸ rowsAtLeast_of_rect g2 h2
    rw [close_enough, if_neg (not_not_intro hlen), if_neg hz,
      if_neg (not_not_intro hweq), if_neg (not_not_intro ⟨hr1, hr2⟩),
      Option.some_inj]
    simp only [List.all_eq_true, List.mem_range, ite_false_true, not_lt]
  · intro v1 v2
    rw [close_enough_scalar, ite_false_true, not_lt]

/-- Witness for C10: two 1×1 grids whose cells differ by exactly `0.0001`
compare equal (the bound is inclusive), and likewise for the scalar
overload. -/
theorem close_enough_tolerance_witness :
    close_enough [[(0 : ℚ)]] [[(1 : ℚ)/10000]] = some true ∧
    close_enough_scalar 0 (1/10000) = true := by
  have h := close_enough_tolerance [[(0 : ℚ)]] [[(1 : ℚ)/10000]] (by decide) (by decide)
  constructor
  · refine (h.2.2.1 (by decide) (by decide) (by decide)).mpr ?_
    intro i hi j hj
    have hi1 : i = 0 := by simpa using hi
    have hj1 : j = 0 := by simpa [width] using hj
    subst hi1
    subst hj1
    with_unfolding_all decide
  · exact (h.2.2.2 0 (1/10000)).mpr (by with_unfolding_all decide)

end HistogramFilter
